import Mathlib

/-!
Verification of the minidraw hierarchical coordinate / primitive / render
pipeline, shallowly embedded from the Python sources:

* `src/minidraw/point.py`  — hierarchical `Point` (offset-only nodes)
* `src/minidraw/pose.py`   — hierarchical `Pose` (offset + rotation + scale)
* `src/minidraw/primitives.py` — primitive variants and their transform protocol
* `src/minidraw/transform.py`  — `rotate_point` / `scale_point`
* `src/minidraw/render.py` — SVG arc serialization and bounding-box pass

Exact rationals (`ℚ`) model Python floats wherever the code performs only
field arithmetic; real numbers (`ℝ`) are used where the code calls
`math.cos` / `math.sin`.
-/

namespace Minidraw

/-! ## Heap model of `Point` (point.py)

`Point` objects are mutable and `parent` is an object reference, so cyclic
parent chains are representable.  We model the heap as a list of point
records addressed by index, mirroring the fields stored by
`Point.__init__` (`self.x`, `self.y`, `self.parent`, `self.name`). -/

/-- One `Point` object on the heap: the fields assigned by
`Point.__init__` in `point.py`, with `parent` an optional heap address. -/
structure PointObj where
  x : ℚ
  y : ℚ
  parent : Option Nat
  name : Option String
  deriving DecidableEq, Repr

/-- `Point.__init__(x, y, parent, name)`: allocates a new object storing the
four fields unchanged — the constructor performs no validation of `parent`.
Returns the new heap and the address of the new object. -/
def mkPoint (σ : List PointObj) (x y : ℚ) (parent : Option Nat)
    (name : Option String) : List PointObj × Nat :=
  (σ ++ [⟨x, y, parent, name⟩], σ.length)

/-- The plain attribute assignment `p.parent = q` (no property setter exists
in `point.py`, so assignment stores the reference unchecked). -/
def setParent (σ : List PointObj) (i : Nat) (p : Option Nat) : List PointObj :=
  match σ.get? i with
  | none => σ
  | some o => σ.set i { o with parent := p }

/-- `Point.abs` from `point.py`, with explicit recursion depth (fuel):
`abs` returns `(x, y)` for a root and `parent.abs() + (x, y)` otherwise.
The Python recursion has no depth bound; `absFuel` returns `none` exactly
when the chain has not reached a root within the given depth, so a
configuration on which `absFuel` is `none` for every depth is one on which
the Python call never returns. -/
def absFuel (σ : List PointObj) : Nat → Nat → Option (ℚ × ℚ)
  | _, 0 => none
  | i, fuel + 1 =>
    match σ.get? i with
    | none => none
    | some o =>
      match o.parent with
      | none => some (o.x, o.y)
      | some j => (absFuel σ j fuel).map (fun q => (q.1 + o.x, q.2 + o.y))

/-- The one-object heap produced by `p = Point(0, 0)` followed by
`p.parent = p`. -/
def cyclicStore : List PointObj :=
  setParent (mkPoint [] 0 0 none none).1 (mkPoint [] 0 0 none none).2 (some 0)

/-! ## Structural model of `Point` (point.py)

For acyclic configurations (the only ones on which `abs` terminates) a
parent chain is a finite structure, so nodes are modelled as a tree whose
`parent` field embeds the whole ancestor chain. -/

/-- A `Point` with its ancestor chain: fields `x`, `y`, `parent`, `name`
as stored by `Point.__init__`. -/
inductive PointT where
  | mk (x y : ℚ) (parent : Option PointT) (name : Option String)

/-- Field accessor for `self.x`. -/
def PointT.xOf : PointT → ℚ
  | .mk x _ _ _ => x

/-- Field accessor for `self.y`. -/
def PointT.yOf : PointT → ℚ
  | .mk _ y _ _ => y

/-- Field accessor for `self.parent`. -/
def PointT.parentOf : PointT → Option PointT
  | .mk _ _ p _ => p

/-- Field accessor for `self.name`. -/
def PointT.nameOf : PointT → Option String
  | .mk _ _ _ n => n

/-- `Point.abs`: a root returns `(x, y)`; otherwise the parent's absolute
coordinates plus the local offset. -/
def PointT.abs : PointT → ℚ × ℚ
  | .mk x y none _ => (x, y)
  | .mk x y (some p) _ => ((PointT.abs p).1 + x, (PointT.abs p).2 + y)

/-- `Point.translate(dx, dy)`: adds `(dx, dy)` to the local fields of the
node itself, leaving the parent chain untouched. -/
def PointT.translate (dx dy : ℚ) : PointT → PointT
  | .mk x y p n => .mk (x + dx) (y + dy) p n

/-- `Point.detach()`: overwrites the local fields with `abs()` and clears
the parent reference. -/
def PointT.detach (p : PointT) : PointT :=
  .mk p.abs.1 p.abs.2 none p.nameOf

/-- `Point.to_local(ref)` for a tuple argument (absolute coordinates):
subtracts the parent's absolute position when a parent exists. -/
def PointT.toLocal (p : PointT) (ref : ℚ × ℚ) : ℚ × ℚ :=
  match p.parentOf with
  | none => ref
  | some par => (ref.1 - par.abs.1, ref.2 - par.abs.2)

/-- `Point.scale(sx, sy, center)` with `sy` optional (defaults to `sx`) and
`center` an optional absolute pair (the tuple branch of `PointLike`):
with no pivot the local pivot is `(0, 0)`; otherwise the pivot is converted
into the local frame by `to_local`. -/
def PointT.scale (sx : ℚ) (sy? : Option ℚ) (center : Option (ℚ × ℚ))
    (p : PointT) : PointT :=
  let sy := sy?.getD sx
  let c : ℚ × ℚ :=
    match center with
    | some r => p.toLocal r
    | none => (0, 0)
  match p with
  | .mk x y par n => .mk (sx * (x - c.1) + c.1) (sy * (y - c.2) + c.2) par n

/-! ## Structural model of `Pose` (pose.py)

A `Pose` stores a local translation `(dx, dy)`, rotation `dtheta` (radians),
anisotropic scale `(sx, sy)`, an optional parent and an optional name.
`world()` calls `math.cos` / `math.sin`, so the model lives over `ℝ`. -/

/-- A `Pose` with its ancestor chain: the fields stored by
`Pose.__init__` in `pose.py`. -/
inductive PoseT where
  | mk (dx dy dtheta sx sy : ℝ) (parent : Option PoseT) (name : Option String)

/-- Field accessor for `self.dx`. -/
def PoseT.dxOf : PoseT → ℝ
  | .mk dx _ _ _ _ _ _ => dx

/-- Field accessor for `self.dy`. -/
def PoseT.dyOf : PoseT → ℝ
  | .mk _ dy _ _ _ _ _ => dy

/-- Field accessor for `self.dtheta`. -/
def PoseT.dthetaOf : PoseT → ℝ
  | .mk _ _ dθ _ _ _ _ => dθ

/-- Field accessor for `self.sx`. -/
def PoseT.sxOf : PoseT → ℝ
  | .mk _ _ _ sx _ _ _ => sx

/-- Field accessor for `self.sy`. -/
def PoseT.syOf : PoseT → ℝ
  | .mk _ _ _ _ sy _ _ => sy

/-- Field accessor for `self.parent`. -/
def PoseT.parentOf : PoseT → Option PoseT
  | .mk _ _ _ _ _ p _ => p

/-- `Pose.world()`: a root returns `(dx, dy, dtheta)`; otherwise the local
offset is scaled by the parent's `(sx, sy)`, rotated by the parent's world
angle and added to the parent's world position, and the angles add. -/
noncomputable def PoseT.world : PoseT → ℝ × ℝ × ℝ
  | .mk dx dy dθ _ _ none _ => (dx, dy, dθ)
  | .mk dx dy dθ _ _ (some par) _ =>
    let w := PoseT.world par
    let lx := dx * par.sxOf
    let ly := dy * par.syOf
    (w.1 + lx * Real.cos w.2.2 - ly * Real.sin w.2.2,
     w.2.1 + lx * Real.sin w.2.2 + ly * Real.cos w.2.2,
     w.2.2 + dθ)

/-- `Pose.translate(dx, dy)`: adds to the local `dx`, `dy` fields only. -/
def PoseT.translate (tx ty : ℝ) : PoseT → PoseT
  | .mk dx dy dθ sx sy p n => .mk (dx + tx) (dy + ty) dθ sx sy p n

/-- `Pose.rotate(dtheta, around)`: with `around=None` only `self.dtheta`
accumulates; with a pivot the local offset is rotated about the pivot and
`self.dtheta` accumulates. -/
noncomputable def PoseT.rotate (δ : ℝ) (around : Option (ℝ × ℝ)) :
    PoseT → PoseT
  | .mk dx dy dθ sx sy p n =>
    match around with
    | none => .mk dx dy (dθ + δ) sx sy p n
    | some (ax, ay) =>
      let tx := dx - ax
      let ty := dy - ay
      let c := Real.cos δ
      let s := Real.sin δ
      .mk (tx * c - ty * s + ax) (tx * s + ty * c + ay) (dθ + δ) sx sy p n

/-- `Pose.scale(sx, sy, around)`: `sy` defaults to `sx`; with a pivot the
local offset is scaled about the pivot; the stored scales always multiply. -/
def PoseT.scale (fx : ℝ) (fy? : Option ℝ) (around : Option (ℝ × ℝ)) :
    PoseT → PoseT
  | .mk dx dy dθ sx sy p n =>
    let fy := fy?.getD fx
    match around with
    | none => .mk dx dy dθ (sx * fx) (sy * fy) p n
    | some (ax, ay) =>
      .mk (ax + (dx - ax) * fx) (ay + (dy - ay) * fy) dθ (sx * fx) (sy * fy) p n

/-- `Pose.detach()`: a new root pose whose local fields are the world pose
(`x`, `y`, `theta`) with the original `sx`, `sy` and no parent (the `Pose`
constructor's default `name=None` applies). -/
noncomputable def PoseT.detach (p : PoseT) : PoseT :=
  .mk p.world.1 p.world.2.1 p.world.2.2 p.sxOf p.syOf none none

/-! ## Style (`style.py` is absent from the sources)

Modelled from the spec: a record of independently-optional visual
attributes (stroke color, stroke width, fill color, opacity, dash pattern,
line cap, line join, font size, font family, text anchor), with
`merge(own, inherited)` resolving each attribute to the own value when set
and otherwise to the inherited value (spec sections 3 and 4.3). -/

/-- Resolution of one optional attribute:
`own[attr] if own[attr] is set else inherited[attr]`. -/
def mergeAttr {α : Type} (own inherited : Option α) : Option α :=
  match own with
  | some v => some v
  | none => inherited

/-- Modelled from the spec: the `Style` record of the missing `style.py` —
ten independently-optional visual attributes, none with an implicit
non-null default at this layer. -/
structure Style where
  stroke : Option String
  stroke_width : Option ℚ
  fill : Option String
  opacity : Option ℚ
  dash : Option (List ℚ)
  linecap : Option String
  linejoin : Option String
  font_size : Option ℚ
  font_family : Option String
  text_anchor : Option String
  deriving DecidableEq, Repr

/-- Modelled from the spec: `Style.merge(own, inherited)` resolves every
attribute to the own value when set, otherwise the inherited value. -/
def Style.merge (own inherited : Style) : Style where
  stroke := mergeAttr own.stroke inherited.stroke
  stroke_width := mergeAttr own.stroke_width inherited.stroke_width
  fill := mergeAttr own.fill inherited.fill
  opacity := mergeAttr own.opacity inherited.opacity
  dash := mergeAttr own.dash inherited.dash
  linecap := mergeAttr own.linecap inherited.linecap
  linejoin := mergeAttr own.linejoin inherited.linejoin
  font_size := mergeAttr own.font_size inherited.font_size
  font_family := mergeAttr own.font_family inherited.font_family
  text_anchor := mergeAttr own.text_anchor inherited.text_anchor

/-! ## Point helpers of the primitive layer

In `primitives.py` the coordinates held by primitives are used as plain
absolute pairs; `transform.py` provides the point transforms. -/

noncomputable section

/-- `math.radians`: degrees to radians. -/
def radiansR (deg : ℝ) : ℝ := deg * Real.pi / 180

/-- `rotate_point(p, angle_deg, center)` from `transform.py`. -/
def rotate_point (p : ℝ × ℝ) (angle_deg : ℝ) (center : ℝ × ℝ) : ℝ × ℝ :=
  let angle := radiansR angle_deg
  let dx := p.1 - center.1
  let dy := p.2 - center.2
  (center.1 + dx * Real.cos angle - dy * Real.sin angle,
   center.2 + dx * Real.sin angle + dy * Real.cos angle)

/-- `scale_point(p, scale_x, scale_y, center)` from `transform.py`. -/
def scale_point (p : ℝ × ℝ) (scale_x scale_y : ℝ) (center : ℝ × ℝ) : ℝ × ℝ :=
  (center.1 + (p.1 - center.1) * scale_x, center.2 + (p.2 - center.2) * scale_y)

/-- Translation of a coordinate pair by `(dx, dy)` (the `translated`
helper used by `primitives.py`). -/
def translate_point (p : ℝ × ℝ) (dx dy : ℝ) : ℝ × ℝ :=
  (p.1 + dx, p.2 + dy)

/-- Modelled from the spec: the `mirrored(point, angle)` point helper used
by `primitives.py` is absent from the sources; per spec section 4.1, mirror
reflects across the line through `point` at `angle` degrees — translate
into the axis frame, negate the perpendicular component, translate back. -/
def mirror_point (p : ℝ × ℝ) (point : ℝ × ℝ) (angle_deg : ℝ) : ℝ × ℝ :=
  let θ := radiansR angle_deg
  let ux := Real.cos θ
  let uy := Real.sin θ
  let vx := p.1 - point.1
  let vy := p.2 - point.2
  let dot := vx * ux + vy * uy
  let perp_x := vx - dot * ux
  let perp_y := vy - dot * uy
  (point.1 + vx - 2 * perp_x, point.2 + vy - 2 * perp_y)

/-! ## Primitive variants (primitives.py)

A closed sum of the seven variants, each carrying a `Style`, with the
transform protocol `center` / `translate` / `rotate` / `resize` /
`mirror`. -/

/-- The closed set of primitive variants from `primitives.py`. -/
inductive Prim where
  | line (style : Style) (start fin : ℝ × ℝ)
  | circle (style : Style) (center_point : ℝ × ℝ) (radius : ℝ)
  | rect (style : Style) (pos : ℝ × ℝ) (size : ℝ × ℝ)
  | polyline (style : Style) (points : List (ℝ × ℝ))
  | arc (style : Style) (center_point : ℝ × ℝ)
      (radius start_angle end_angle : ℝ)
  | text (style : Style) (pos : ℝ × ℝ) (content : String)
  | group (style : Style) (elements : List Prim)

mutual

/-- `center()` of each variant: midpoint for `Line`; the stored center for
`Circle` / `Arc` / `Text`; the box center for `Rectangle`; the vertex
centroid for `Polyline` (`(0, 0)` when empty); the average of the children's
centers for `Group` (`(0, 0)` when empty). -/
def Prim.center : Prim → ℝ × ℝ
  | .line _ s e => ((s.1 + e.1) / 2, (s.2 + e.2) / 2)
  | .circle _ cp _ => cp
  | .rect _ p sz => (p.1 + sz.1 / 2, p.2 + sz.2 / 2)
  | .polyline _ pts =>
    match pts with
    | [] => (0, 0)
    | _ :: _ =>
      ((pts.map Prod.fst).sum / pts.length, (pts.map Prod.snd).sum / pts.length)
  | .arc _ cp _ _ _ => cp
  | .text _ p _ => p
  | .group _ els =>
    match els with
    | [] => (0, 0)
    | _ :: _ =>
      let cs := Prim.centerList els
      ((cs.map Prod.fst).sum / cs.length, (cs.map Prod.snd).sum / cs.length)

/-- The children's centers, as generated by `Group.center`. -/
def Prim.centerList : List Prim → List (ℝ × ℝ)
  | [] => []
  | p :: ps => Prim.center p :: Prim.centerList ps

end

mutual

/-- `translate(dx, dy)` of each variant: moves every stored coordinate;
`Group` forwards the same `(dx, dy)` to every child. -/
def Prim.translate (dx dy : ℝ) : Prim → Prim
  | .line st s e => .line st (translate_point s dx dy) (translate_point e dx dy)
  | .circle st cp r => .circle st (translate_point cp dx dy) r
  | .rect st p sz => .rect st (translate_point p dx dy) sz
  | .polyline st pts => .polyline st (pts.map (fun q => translate_point q dx dy))
  | .arc st cp r a0 a1 => .arc st (translate_point cp dx dy) r a0 a1
  | .text st p ct => .text st (translate_point p dx dy) ct
  | .group st els => .group st (Prim.translateList dx dy els)

/-- `Group.translate` body: `e.translate(dx, dy)` on every child. -/
def Prim.translateList (dx dy : ℝ) : List Prim → List Prim
  | [] => []
  | p :: ps => Prim.translate dx dy p :: Prim.translateList dx dy ps

end

mutual

/-- `rotate(angle_deg, center)` of each variant: the pivot defaults to the
variant's own center (`center_point` / `pos` for `Circle` / `Arc` / `Text`,
`center()` otherwise); `Arc` also shifts both angles; `Group` resolves the
pivot once and passes that same pivot to every child. -/
def Prim.rotate (angle_deg : ℝ) (center : Option (ℝ × ℝ)) : Prim → Prim
  | .line st s e =>
    let c := center.getD (Prim.center (.line st s e))
    .line st (rotate_point s angle_deg c) (rotate_point e angle_deg c)
  | .circle st cp r =>
    let c := center.getD cp
    .circle st (rotate_point cp angle_deg c) r
  | .rect st p sz =>
    let c := center.getD (Prim.center (.rect st p sz))
    .rect st (rotate_point p angle_deg c) sz
  | .polyline st pts =>
    let c := center.getD (Prim.center (.polyline st pts))
    .polyline st (pts.map (fun q => rotate_point q angle_deg c))
  | .arc st cp r a0 a1 =>
    let c := center.getD cp
    .arc st (rotate_point cp angle_deg c) r (a0 + angle_deg) (a1 + angle_deg)
  | .text st p ct =>
    let c := center.getD p
    .text st (rotate_point p angle_deg c) ct
  | .group st els =>
    let c := center.getD (Prim.center (.group st els))
    .group st (Prim.rotateList angle_deg c els)

/-- `Group.rotate` body: `e.rotate(angle_deg, c)` with the single resolved
pivot `c` on every child. -/
def Prim.rotateList (angle_deg : ℝ) (c : ℝ × ℝ) : List Prim → List Prim
  | [] => []
  | p :: ps => Prim.rotate angle_deg (some c) p :: Prim.rotateList angle_deg c ps

end

mutual

/-- `resize(scale_x, scale_y, center)` of each variant: coordinates scale
about the resolved pivot; `Circle` / `Arc` multiply `radius` by
`(scale_x + scale_y) / 2`; `Rectangle` scales `size` component-wise;
`Group` resolves the pivot once and passes it to every child. -/
def Prim.resize (scale_x scale_y : ℝ) (center : Option (ℝ × ℝ)) : Prim → Prim
  | .line st s e =>
    let c := center.getD (Prim.center (.line st s e))
    .line st (scale_point s scale_x scale_y c) (scale_point e scale_x scale_y c)
  | .circle st cp r =>
    let c := center.getD cp
    .circle st (scale_point cp scale_x scale_y c) (r * ((scale_x + scale_y) / 2))
  | .rect st p sz =>
    let c := center.getD (Prim.center (.rect st p sz))
    .rect st (scale_point p scale_x scale_y c) (sz.1 * scale_x, sz.2 * scale_y)
  | .polyline st pts =>
    let c := center.getD (Prim.center (.polyline st pts))
    .polyline st (pts.map (fun q => scale_point q scale_x scale_y c))
  | .arc st cp r a0 a1 =>
    let c := center.getD cp
    .arc st (scale_point cp scale_x scale_y c) (r * ((scale_x + scale_y) / 2)) a0 a1
  | .text st p ct =>
    let c := center.getD p
    .text st (scale_point p scale_x scale_y c) ct
  | .group st els =>
    let c := center.getD (Prim.center (.group st els))
    .group st (Prim.resizeList scale_x scale_y c els)

/-- `Group.resize` body: `e.resize(scale_x, scale_y, c)` with the single
resolved pivot `c` on every child. -/
def Prim.resizeList (scale_x scale_y : ℝ) (c : ℝ × ℝ) : List Prim → List Prim
  | [] => []
  | p :: ps =>
    Prim.resize scale_x scale_y (some c) p :: Prim.resizeList scale_x scale_y c ps

end

mutual

/-- `mirror(point, angle)` of each variant: every stored coordinate is
reflected; `Group` forwards the same `point` and `angle` to every child. -/
def Prim.mirror (point : ℝ × ℝ) (angle : ℝ) : Prim → Prim
  | .line st s e => .line st (mirror_point s point angle) (mirror_point e point angle)
  | .circle st cp r => .circle st (mirror_point cp point angle) r
  | .rect st p sz => .rect st (mirror_point p point angle) sz
  | .polyline st pts => .polyline st (pts.map (fun q => mirror_point q point angle))
  | .arc st cp r a0 a1 => .arc st (mirror_point cp point angle) r a0 a1
  | .text st p ct => .text st (mirror_point p point angle) ct
  | .group st els => .group st (Prim.mirrorList point angle els)

/-- `Group.mirror` body: `e.mirror(point, angle)` on every child. -/
def Prim.mirrorList (point : ℝ × ℝ) (angle : ℝ) : List Prim → List Prim
  | [] => []
  | p :: ps => Prim.mirror point angle p :: Prim.mirrorList point angle ps

end

/-! ## SVG render engine (render.py): arc path and bounding box -/

/-- The data of the `path` element emitted for an `Arc` by `_draw_arc`:
`M start_x,start_y A radius,radius 0 large_arc,sweep end_x,end_y`. -/
structure ArcPath where
  start_x : ℝ
  start_y : ℝ
  rx : ℝ
  ry : ℝ
  large_arc : ℕ
  sweep : ℕ
  end_x : ℝ
  end_y : ℝ

/-- `_draw_arc`: endpoints on the circle at the start/end angles,
`large_arc = 1` iff `abs(end_angle - start_angle) > 180`, sweep flag the
literal `1` of the emitted path string. -/
def drawArcPath (center : ℝ × ℝ) (radius start_angle end_angle : ℝ) : ArcPath where
  start_x := center.1 + radius * Real.cos (radiansR start_angle)
  start_y := center.2 + radius * Real.sin (radiansR start_angle)
  rx := radius
  ry := radius
  large_arc := if |end_angle - start_angle| > 180 then 1 else 0
  sweep := 1
  end_x := center.1 + radius * Real.cos (radiansR end_angle)
  end_y := center.2 + radius * Real.sin (radiansR end_angle)

mutual

/-- The x-coordinates contributed to the bounding box by one item
(`collect` in `_compute_bounds`): endpoints for `Line`, `center ± radius`
for `Circle` / `Arc`, both corners for `Rectangle`, every vertex for
`Polyline`, the anchor for `Text`, and children's contributions for
`Group`. -/
def Prim.collectX : Prim → List ℝ
  | .line _ s e => [s.1, e.1]
  | .circle _ cp r => [cp.1 - r, cp.1 + r]
  | .rect _ p sz => [p.1, p.1 + sz.1]
  | .polyline _ pts => pts.map Prod.fst
  | .arc _ cp r _ _ => [cp.1 - r, cp.1 + r]
  | .text _ p _ => [p.1]
  | .group _ els => Prim.collectXList els

/-- X-contributions of a list of items. -/
def Prim.collectXList : List Prim → List ℝ
  | [] => []
  | p :: ps => Prim.collectX p ++ Prim.collectXList ps

end

mutual

/-- The y-coordinates contributed to the bounding box by one item. -/
def Prim.collectY : Prim → List ℝ
  | .line _ s e => [s.2, e.2]
  | .circle _ cp r => [cp.2 - r, cp.2 + r]
  | .rect _ p sz => [p.2, p.2 + sz.2]
  | .polyline _ pts => pts.map Prod.snd
  | .arc _ cp r _ _ => [cp.2 - r, cp.2 + r]
  | .text _ p _ => [p.2]
  | .group _ els => Prim.collectYList els

/-- Y-contributions of a list of items. -/
def Prim.collectYList : List Prim → List ℝ
  | [] => []
  | p :: ps => Prim.collectY p ++ Prim.collectYList ps

end

/-- Python `min` over a nonempty list (`0` supplied for the impossible
empty case; `_compute_bounds` only calls it on nonempty lists). -/
def listMin : List ℝ → ℝ
  | [] => 0
  | x :: xs => xs.foldl min x

/-- Python `max` over a nonempty list. -/
def listMax : List ℝ → ℝ
  | [] => 0
  | x :: xs => xs.foldl max x

/-- `_compute_bounds`: `None` when no coordinates were contributed,
otherwise `(min xs - 10, min ys - 10, max xs + 10, max ys + 10)` with the
fixed `margin = 10`. -/
def computeBounds (elements : List Prim) : Option (ℝ × ℝ × ℝ × ℝ) :=
  let xs := Prim.collectXList elements
  let ys := Prim.collectYList elements
  match xs, ys with
  | [], _ => none
  | _ :: _, [] => none
  | _ :: _, _ :: _ =>
    some (listMin xs - 10, listMin ys - 10, listMax xs + 10, listMax ys + 10)

/-- The `(min_x, min_y, width, height)` of the `viewBox` attribute computed
by `SVGRenderEngine.render`: the bounds when present, otherwise the fixed
default `(-10, -10, 110, 110)`; `width = max_x - min_x`,
`height = max_y - min_y`. -/
def renderViewBox (elements : List Prim) : ℝ × ℝ × ℝ × ℝ :=
  match computeBounds elements with
  | some (min_x, min_y, max_x, max_y) =>
    (min_x, min_y, max_x - min_x, max_y - min_y)
  | none => (-10, -10, 110 - (-10 : ℝ), 110 - (-10 : ℝ))

end

/-- The `Style()` of all-unset attributes, the inherited seed at the scene
root. -/
def Style.empty : Style :=
  ⟨none, none, none, none, none, none, none, none, none, none⟩

/-- The `radius` field of a `Circle` or `Arc` (`0` for variants without
one). -/
def Prim.radiusOf : Prim → ℝ
  | .circle _ _ r => r
  | .arc _ _ r _ _ => r
  | _ => 0

/-! ## Helper lemmas -/

theorem absFuel_selfparent (fuel : ℕ) :
    absFuel [⟨0, 0, some 0, none⟩] 0 fuel = none := by
  induction fuel with
  | zero => rfl
  | succ n ih => simp [absFuel, ih]

theorem abs_translate (dx dy : ℚ) (q : PointT) :
    (PointT.translate dx dy q).abs = (q.abs.1 + dx, q.abs.2 + dy) := by
  cases q with
  | mk x y par nm => cases par <;> simp [PointT.translate, PointT.abs, add_assoc]

theorem mergeAttr_assoc {α : Type} (a b c : Option α) :
    mergeAttr a (mergeAttr b c) = mergeAttr (mergeAttr a b) c := by
  cases a <;> rfl

theorem rotateList_eq_map (a : ℝ) (c : ℝ × ℝ) (l : List Prim) :
    Prim.rotateList a c l = l.map (Prim.rotate a (some c)) := by
  induction l with
  | nil => rfl
  | cons p ps ih => simp [Prim.rotateList, ih]

theorem resizeList_eq_map (sx sy : ℝ) (c : ℝ × ℝ) (l : List Prim) :
    Prim.resizeList sx sy c l = l.map (Prim.resize sx sy (some c)) := by
  induction l with
  | nil => rfl
  | cons p ps ih => simp [Prim.resizeList, ih]

theorem translateList_eq_map (dx dy : ℝ) (l : List Prim) :
    Prim.translateList dx dy l = l.map (Prim.translate dx dy) := by
  induction l with
  | nil => rfl
  | cons p ps ih => simp [Prim.translateList, ih]

theorem mirrorList_eq_map (pt : ℝ × ℝ) (a : ℝ) (l : List Prim) :
    Prim.mirrorList pt a l = l.map (Prim.mirror pt a) := by
  induction l with
  | nil => rfl
  | cons p ps ih => simp [Prim.mirrorList, ih]

mutual

theorem collectY_length_eq :
    ∀ p : Prim, (Prim.collectY p).length = (Prim.collectX p).length
  | .line _ _ _ => rfl
  | .circle _ _ _ => rfl
  | .rect _ _ _ => rfl
  | .polyline _ pts => by simp [Prim.collectX, Prim.collectY]
  | .arc _ _ _ _ _ => rfl
  | .text _ _ _ => rfl
  | .group _ els => by
    simp [Prim.collectX, Prim.collectY, collectYList_length_eq els]

theorem collectYList_length_eq :
    ∀ l : List Prim, (Prim.collectYList l).length = (Prim.collectXList l).length
  | [] => rfl
  | p :: ps => by
    simp [Prim.collectXList, Prim.collectYList, collectY_length_eq p,
      collectYList_length_eq ps]

end

theorem collectYList_nil_iff (l : List Prim) :
    Prim.collectYList l = [] ↔ Prim.collectXList l = [] := by
  rw [← List.length_eq_zero, ← List.length_eq_zero, collectYList_length_eq]

/-! ## Claim theorems -/

/-- Claim C1 (code evidence): the code performs no cycle rejection.
`p = Point(0, 0)` followed by `p.parent = p` succeeds — the heap holds the
cyclic record, no error path exists in `Point.__init__` or in attribute
assignment — and `Point.abs` on that configuration returns no result at
any recursion depth, i.e. the resolution recursion is unbounded instead of
a configuration error being raised. -/
theorem point_cycle_accepted_and_abs_diverges :
    cyclicStore = [⟨0, 0, some 0, none⟩] ∧
    ∀ fuel : ℕ, absFuel cyclicStore 0 fuel = none := by
  have h : cyclicStore = [⟨0, 0, some 0, none⟩] := by rfl
  exact ⟨h, fun fuel => h ▸ absFuel_selfparent fuel⟩

/-- Claim C2 (counterexample): for `Pose` nodes the translation of the
parent is not reflected one-to-one in the child's world position when the
parent itself has a scaled ancestor.  With roots `r = Pose(sx=2)`,
`q = Pose(parent=r)`, `p = Pose(parent=q)`: after `q.translate(1, 0)` the
world x of `p` is `2`, not the old value plus `1`. -/
theorem pose_parent_translate_shifts_child_by_scaled_delta :
    (PoseT.world (.mk 0 0 0 1 1
        (some (PoseT.translate 1 0
          (.mk 0 0 0 1 1 (some (.mk 0 0 0 2 1 none none)) none))) none)).1 ≠
    (PoseT.world (.mk 0 0 0 1 1
        (some (.mk 0 0 0 1 1 (some (.mk 0 0 0 2 1 none none)) none)) none)).1
      + 1 := by
  simp [PoseT.world, PoseT.translate, PoseT.sxOf, PoseT.syOf]

/-- Claim C2 (amended): for every `Point` node `p` with parent `q`,
`translate(dx, dy)` on `q` changes `p.abs()` by exactly `(dx, dy)`; for
`Pose` nodes the same holds when the translated parent `q` is a root pose,
the world angle staying unchanged. -/
theorem translate_parent_shifts_child_abs_exactly :
    (∀ (px py dx dy : ℚ) (nm : Option String) (q : PointT),
        PointT.abs (.mk px py (some (PointT.translate dx dy q)) nm) =
          ((PointT.abs (.mk px py (some q) nm)).1 + dx,
           (PointT.abs (.mk px py (some q) nm)).2 + dy)) ∧
    (∀ (pdx pdy pθ psx psy qdx qdy qθ qsx qsy dx dy : ℝ)
        (pn qn : Option String),
        PoseT.world (.mk pdx pdy pθ psx psy
            (some (PoseT.translate dx dy (.mk qdx qdy qθ qsx qsy none qn))) pn) =
          ((PoseT.world (.mk pdx pdy pθ psx psy
              (some (.mk qdx qdy qθ qsx qsy none qn)) pn)).1 + dx,
           (PoseT.world (.mk pdx pdy pθ psx psy
              (some (.mk qdx qdy qθ qsx qsy none qn)) pn)).2.1 + dy,
           (PoseT.world (.mk pdx pdy pθ psx psy
              (some (.mk qdx qdy qθ qsx qsy none qn)) pn)).2.2)) := by
  constructor
  · intro px py dx dy nm q
    simp only [PointT.abs, abs_translate, Prod.ext_iff]
    exact ⟨by ring, by ring⟩
  · intro pdx pdy pθ psx psy qdx qdy qθ qsx qsy dx dy pn qn
    simp only [PoseT.world, PoseT.translate, PoseT.sxOf, PoseT.syOf,
      Prod.ext_iff]
    exact ⟨by ring, by ring, by ring⟩

/-- Claim C3 (counterexample): for a `Point`, `scale` with the pivot
omitted uses the local pivot `(0, 0)` — the origin of the parent frame, not
the node's own position — so `Point(1, 0).scale(2)` moves the node's
absolute position from `(1, 0)` to `(2, 0)`. -/
theorem point_scale_without_pivot_moves_node :
    (PointT.scale 2 none none (.mk 1 0 none none)).abs ≠
      (PointT.mk 1 0 none none).abs := by
  norm_num [PointT.scale, PointT.abs, PointT.toLocal, Prod.ext_iff]

/-- Claim C3 (amended): for every `Pose` node, `rotate` or `scale` with the
pivot omitted leaves the node's world position unchanged — only the
rotation angle / scale factors compose.  (For `Point` nodes the omitted
pivot is the local-frame origin, so the position generally changes.) -/
theorem pose_rotate_scale_without_pivot_keep_position
    (p : PoseT) (δ fx : ℝ) (fy? : Option ℝ) :
    ((PoseT.rotate δ none p).world.1 = p.world.1 ∧
     (PoseT.rotate δ none p).world.2.1 = p.world.2.1) ∧
    ((PoseT.scale fx fy? none p).world.1 = p.world.1 ∧
     (PoseT.scale fx fy? none p).world.2.1 = p.world.2.1) := by
  cases p with
  | mk dx dy dθ sx sy par nm =>
    cases par <;> simp [PoseT.rotate, PoseT.scale, PoseT.world]

/-- Witness for the amended C3 theorem at a concrete pose. -/
theorem pose_rotate_scale_without_pivot_keep_position_witness :
    ((PoseT.rotate 1 none (.mk 3 4 0 1 1 none none)).world.1 =
        (PoseT.mk 3 4 0 1 1 none none).world.1 ∧
     (PoseT.rotate 1 none (.mk 3 4 0 1 1 none none)).world.2.1 =
        (PoseT.mk 3 4 0 1 1 none none).world.2.1) ∧
    ((PoseT.scale 2 none none (.mk 3 4 0 1 1 none none)).world.1 =
        (PoseT.mk 3 4 0 1 1 none none).world.1 ∧
     (PoseT.scale 2 none none (.mk 3 4 0 1 1 none none)).world.2.1 =
        (PoseT.mk 3 4 0 1 1 none none).world.2.1) :=
  pose_rotate_scale_without_pivot_keep_position (.mk 3 4 0 1 1 none none) 1 2 none

/-- Claim C4: `detach()` preserves the absolute coordinates exactly, clears
the parent reference, and leaves the local fields holding the previously
computed absolute pose — for `Point` (absolute pair) and for `Pose`
(world x, y, theta). -/
theorem detach_preserves_absolute_and_clears_parent
    (p : PointT) (q : PoseT) :
    (p.detach.abs = p.abs ∧ p.detach.parentOf = none ∧
     p.detach.xOf = p.abs.1 ∧ p.detach.yOf = p.abs.2) ∧
    (q.detach.world = q.world ∧ q.detach.parentOf = none ∧
     q.detach.dxOf = q.world.1 ∧ q.detach.dyOf = q.world.2.1 ∧
     q.detach.dthetaOf = q.world.2.2) := by
  refine ⟨⟨?_, rfl, rfl, rfl⟩, ⟨?_, rfl, rfl, rfl, rfl⟩⟩
  · cases p with
    | mk x y par nm => simp [PointT.detach, PointT.abs]
  · cases q with
    | mk dx dy dθ sx sy par nm => simp [PoseT.detach, PoseT.world]

/-- Claim C5: style merge is associative — for all styles `a`, `b`, `c`
over the fixed attribute set,
`merge(a, merge(b, c)) = merge(merge(a, b), c)`, where each attribute
resolves to the own value when set and otherwise to the inherited value. -/
theorem style_merge_assoc (a b c : Style) :
    Style.merge a (Style.merge b c) = Style.merge (Style.merge a b) c := by
  simp [Style.merge, mergeAttr_assoc]

/-- Claim C6: every `Group` transform applies the same operation with the
same resolved pivot to every child — an omitted pivot is resolved once to
the group's center and that single pivot (not each child's own center) is
passed to each child; `translate` and `mirror` forward their arguments
unchanged. -/
theorem group_transforms_use_single_resolved_pivot
    (st : Style) (els : List Prim) (a sx sy dx dy mx my mθ : ℝ) (c : ℝ × ℝ) :
    (Prim.rotate a none (.group st els) =
        .group st (els.map (Prim.rotate a (some (Prim.center (.group st els))))) ∧
     Prim.rotate a (some c) (.group st els) =
        .group st (els.map (Prim.rotate a (some c)))) ∧
    (Prim.resize sx sy none (.group st els) =
        .group st (els.map (Prim.resize sx sy (some (Prim.center (.group st els))))) ∧
     Prim.resize sx sy (some c) (.group st els) =
        .group st (els.map (Prim.resize sx sy (some c)))) ∧
    Prim.translate dx dy (.group st els) =
        .group st (els.map (Prim.translate dx dy)) ∧
    Prim.mirror (mx, my) mθ (.group st els) =
        .group st (els.map (Prim.mirror (mx, my) mθ)) := by
  refine ⟨⟨?_, ?_⟩, ⟨?_, ?_⟩, ?_, ?_⟩ <;>
    simp [Prim.rotate, Prim.resize, Prim.translate, Prim.mirror,
      rotateList_eq_map, resizeList_eq_map, translateList_eq_map,
      mirrorList_eq_map]

/-- Claim C7: `resize(scale_x, scale_y)` multiplies the radius of a
`Circle` or an `Arc` by `(scale_x + scale_y) / 2`; in particular a circle
of radius `5` resized by `(2, 3)` has radius `12.5`. -/
theorem circle_arc_resize_radius_isotropic_average
    (st : Style) (cp : ℝ × ℝ) (r sx sy a0 a1 : ℝ) (c : Option (ℝ × ℝ)) :
    (Prim.resize sx sy c (.circle st cp r)).radiusOf = r * ((sx + sy) / 2) ∧
    (Prim.resize sx sy c (.arc st cp r a0 a1)).radiusOf = r * ((sx + sy) / 2) ∧
    (Prim.resize 2 3 none (.circle st (0, 0) 5)).radiusOf = 25 / 2 := by
  refine ⟨by simp [Prim.resize, Prim.radiusOf],
    by simp [Prim.resize, Prim.radiusOf],
    by norm_num [Prim.resize, Prim.radiusOf]⟩

/-- Claim C8: the `path` emitted for an `Arc` has `large_arc = 1` iff the
absolute angular span `abs(end_angle - start_angle)` exceeds `180`, with
the sweep flag always `1`; an arc from `0` to `270` degrees gets flag `1`
and one from `0` to `90` gets flag `0`. -/
theorem arc_large_arc_flag_iff_span_gt_180 (c : ℝ × ℝ) (r s e : ℝ) :
    ((drawArcPath c r s e).large_arc = 1 ↔ |e - s| > 180) ∧
    (drawArcPath c r s e).sweep = 1 ∧
    (drawArcPath c r 0 270).large_arc = 1 ∧
    (drawArcPath c r 0 90).large_arc = 0 := by
  refine ⟨?_, rfl, ?_, ?_⟩
  · simp only [drawArcPath]
    split <;> simp [*]
  · have h : |(270 : ℝ) - 0| > 180 := by
      rw [sub_zero, abs_of_nonneg] <;> norm_num
    simp [drawArcPath, h]
    norm_num
  · have h : ¬ (|(90 : ℝ) - 0| > 180) := by
      rw [sub_zero, abs_of_nonneg] <;> norm_num
    simp [drawArcPath, h]
    norm_num

/-- Claim C9: a scene contributing no coordinates renders with the fixed
default viewport `(-10, -10, 110, 110)`, i.e. `viewBox` min `(-10, -10)`
with width `120` and height `120`; when coordinates are contributed, the
bounds are the global min/max expanded by the fixed margin `10` on every
side. -/
theorem render_viewport_default_and_margin (els : List Prim) :
    (Prim.collectXList els = [] → renderViewBox els = (-10, -10, 120, 120)) ∧
    (Prim.collectXList els ≠ [] →
      computeBounds els =
        some (listMin (Prim.collectXList els) - 10,
          listMin (Prim.collectYList els) - 10,
          listMax (Prim.collectXList els) + 10,
          listMax (Prim.collectYList els) + 10)) := by
  constructor
  · intro h
    have hb : computeBounds els = none := by
      simp only [computeBounds]
      rw [h]
    simp only [renderViewBox, hb]
    norm_num
  · intro h
    obtain ⟨x, xs, hx⟩ := List.exists_cons_of_ne_nil h
    have hy : Prim.collectYList els ≠ [] := fun hnil =>
      h ((collectYList_nil_iff els).mp hnil)
    obtain ⟨y, ys, hyy⟩ := List.exists_cons_of_ne_nil hy
    simp only [computeBounds]
    rw [hx, hyy]

/-- Witness for the C9 theorem: the empty scene gets the default viewport,
and a scene holding one text anchor at `(3, 4)` gets min/max `± 10`
bounds. -/
theorem render_viewport_default_and_margin_witness :
    renderViewBox [] = (-10, -10, 120, 120) ∧
    computeBounds [Prim.text Style.empty (3, 4) ""] =
      some (listMin (Prim.collectXList [Prim.text Style.empty (3, 4) ""]) - 10,
        listMin (Prim.collectYList [Prim.text Style.empty (3, 4) ""]) - 10,
        listMax (Prim.collectXList [Prim.text Style.empty (3, 4) ""]) + 10,
        listMax (Prim.collectYList [Prim.text Style.empty (3, 4) ""]) + 10) :=
  ⟨(render_viewport_default_and_margin []).1 rfl,
   (render_viewport_default_and_margin [Prim.text Style.empty (3, 4) ""]).2
     (by simp [Prim.collectXList, Prim.collectX])⟩

/-- Claim C10: `center()` is total on degenerate containers — an empty
`Polyline` and an empty `Group` both return `(0, 0)` — so transforms with
an omitted pivot are well-defined on empty containers. -/
theorem center_total_on_empty_containers (st : Style) (a : ℝ) :
    Prim.center (.polyline st []) = (0, 0) ∧
    Prim.center (.group st []) = (0, 0) ∧
    Prim.rotate a none (.polyline st []) = .polyline st [] ∧
    Prim.rotate a none (.group st []) = .group st [] := by
  refine ⟨rfl, rfl, ?_, ?_⟩ <;> simp [Prim.rotate, Prim.rotateList]

end Minidraw
